import Mathlib

/-
Verification of the max-assistant conversational pipeline core.

The definitions below are a shallow embedding of the Python sources:
  src/max_assistant/agent/graph.py        (reasoning loop nodes)
  src/max_assistant/tools/registry.py     (tool registry)
  src/max_assistant/clients/stt_client.py (STT streaming client)
  src/max_assistant/clients/tts_client.py (TTS client)
  src/max_assistant/connection_manager.py (session supervisor shutdown)
  src/config.py                           (configuration constants)
-/

namespace MaxAssistant

/-! ## JSON values and a model of json.loads

The reasoning loop calls json.loads on the raw model output to detect
free-text tool calls. We embed a JSON value type and a recursive-descent
parser following the grammar Python json.loads (default, strict mode)
accepts: objects, arrays, strings (raw control characters below 0x20
rejected; escapes double-quote, backslash, slash, b, f, n, r, t and
uXXXX with surrogate-pair combination), numbers per the scanner regex
-?(0|[1-9][0-9]*)(.[0-9]+)?([eE][+-]?[0-9]+)? where a fraction or
exponent makes the value a float, the constants true, false, null, NaN,
Infinity and -Infinity, arbitrary surrounding whitespace (space, tab,
newline, carriage return), duplicate object keys resolved last-wins in
first-insertion position as Python dict construction does, and trailing
garbage rejected. A float is kept as its raw lexeme: its numeric value
is never consumed by the embedded code, only the shape of the parse
result is. A lone surrogate escape is accepted exactly as json.loads
accepts it; its decoded character is represented through Char.ofNat,
which cannot carry a surrogate code point — this affects only the
decoded text of such a string, never whether an input parses or which
keys an object has. -/

inductive JsonValue where
  | null : JsonValue
  | bool (b : Bool) : JsonValue
  | num (n : Int) : JsonValue
  | flt (raw : String) : JsonValue
  | str (s : String) : JsonValue
  | arr (xs : List JsonValue) : JsonValue
  | obj (fields : List (String × JsonValue)) : JsonValue
deriving Repr

def quoteCh : Char := Char.ofNat 34

def backslashCh : Char := Char.ofNat 92

def lbraceCh : Char := Char.ofNat 123

def rbraceCh : Char := Char.ofNat 125

def isJsonWs (c : Char) : Bool :=
  c.toNat = 32 || c.toNat = 9 || c.toNat = 10 || c.toNat = 13

def skipWs : List Char → List Char
  | [] => []
  | c :: cs => if isJsonWs c then skipWs cs else c :: cs

/-- Decode one single-character escape of a JSON string literal, per
the BACKSLASH table of the json decoder (the uXXXX escape is handled
separately). -/
def unescape (c : Char) : Option Char :=
  if c = quoteCh then some quoteCh
  else if c = backslashCh then some backslashCh
  else if c = '/' then some '/'
  else if c = 'b' then some (Char.ofNat 8)
  else if c = 'f' then some (Char.ofNat 12)
  else if c = 'n' then some (Char.ofNat 10)
  else if c = 't' then some (Char.ofNat 9)
  else if c = 'r' then some (Char.ofNat 13)
  else none

/-- The value of one hexadecimal digit. -/
def hexVal (c : Char) : Option Nat :=
  if c.isDigit then some (c.toNat - 48)
  else if 'a' ≤ c ∧ c ≤ 'f' then some (10 + c.toNat - 97)
  else if 'A' ≤ c ∧ c ≤ 'F' then some (10 + c.toNat - 65)
  else none

/-- Parse exactly four hexadecimal digits, as the uXXXX escape decoder
does. -/
def parseHex4 : List Char → Option (Nat × List Char)
  | a :: b :: c :: d :: rest =>
    match hexVal a, hexVal b, hexVal c, hexVal d with
    | some x, some y, some z, some w => some (((x * 16 + y) * 16 + z) * 16 + w, rest)
    | _, _, _, _ => none
  | _ => none

/-- Parse the characters of a string literal after the opening quote,
returning the decoded content and the remaining input after the closing
quote. Raw control characters are rejected (strict mode); a high
surrogate escape immediately followed by a low surrogate escape is
combined into one code point, and a high surrogate followed by a
backslash-u escape with invalid hex digits is an error, exactly as in
the json decoder scanstring. Each step consumes at least one character,
so fuel equal to the input length plus one suffices. -/
def parseStrChars (fuel : Nat) (cs : List Char) : Option (List Char × List Char) :=
  match fuel with
  | 0 => none
  | f + 1 =>
    match cs with
    | [] => none
    | c :: cs1 =>
      if c = quoteCh then some ([], cs1)
      else if c.toNat < 32 then none
      else if c = backslashCh then
        match cs1 with
        | [] => none
        | e :: cs2 =>
          if e = 'u' then
            match parseHex4 cs2 with
            | none => none
            | some (n, cs3) =>
              if 0xD800 ≤ n ∧ n ≤ 0xDBFF then
                match cs3 with
                | b1 :: u1 :: cs4 =>
                  if b1 = backslashCh ∧ u1 = 'u' then
                    match parseHex4 cs4 with
                    | none => none
                    | some (m, cs5) =>
                      if 0xDC00 ≤ m ∧ m ≤ 0xDFFF then
                        match parseStrChars f cs5 with
                        | none => none
                        | some (out, rest) =>
                          some (Char.ofNat
                            (0x10000 + (n - 0xD800) * 0x400 + (m - 0xDC00)) :: out, rest)
                      else
                        match parseStrChars f cs3 with
                        | none => none
                        | some (out, rest) => some (Char.ofNat n :: out, rest)
                  else
                    match parseStrChars f cs3 with
                    | none => none
                    | some (out, rest) => some (Char.ofNat n :: out, rest)
                | _ =>
                  match parseStrChars f cs3 with
                  | none => none
                  | some (out, rest) => some (Char.ofNat n :: out, rest)
              else
                match parseStrChars f cs3 with
                | none => none
                | some (out, rest) => some (Char.ofNat n :: out, rest)
          else
            match unescape e with
            | none => none
            | some ch =>
              match parseStrChars f cs2 with
              | none => none
              | some (out, rest) => some (ch :: out, rest)
      else
        match parseStrChars f cs1 with
        | none => none
        | some (out, rest) => some (c :: out, rest)

/-- Strip an exact expected character sequence. -/
def stripSeq : List Char → List Char → Option (List Char)
  | [], cs => some cs
  | p :: ps, c :: cs => if c = p then stripSeq ps cs else none
  | _ :: _, [] => none

def digitsToNat (ds : List Char) : Nat :=
  ds.foldl (fun n c => n * 10 + (c.toNat - 48)) 0

/-- The optional fraction group of the number regex: a dot followed by
at least one digit; consumed greedily, not consumed at all otherwise. -/
def pyFracPart (cs : List Char) : List Char × List Char :=
  match cs with
  | c :: c2 :: rest =>
    if c = '.' ∧ c2.isDigit then
      (c :: (c2 :: rest).takeWhile Char.isDigit, (c2 :: rest).dropWhile Char.isDigit)
    else ([], cs)
  | _ => ([], cs)

/-- The optional exponent group of the number regex: e or E, an
optional sign, and at least one digit; consumed greedily, not consumed
at all otherwise. -/
def pyExpPart (cs : List Char) : List Char × List Char :=
  match cs with
  | [] => ([], [])
  | c :: rest =>
    if c = 'e' ∨ c = 'E' then
      match rest with
      | [] => ([], cs)
      | s :: rest2 =>
        if s = '+' ∨ s = '-' then
          let ds := rest2.takeWhile Char.isDigit
          if ds.isEmpty then ([], cs)
          else (c :: s :: ds, rest2.dropWhile Char.isDigit)
        else
          let ds := rest.takeWhile Char.isDigit
          if ds.isEmpty then ([], cs)
          else (c :: ds, rest.dropWhile Char.isDigit)
    else ([], cs)

/-- Match a number at the head of the input per the scanner regex
-?(0|[1-9][0-9]*)(.[0-9]+)?([eE][+-]?[0-9]+)? (the sign has already
been consumed by the caller). The integer part after a leading 0 is
just that 0, so 007 matches as 0 and the leftover digits make the
enclosing parse fail, as in Python. A fraction or exponent group makes
the result a float, kept as its raw lexeme; otherwise it is an
integer. -/
def parseNumberMatch (neg : Bool) (cs : List Char) : Option (JsonValue × List Char) :=
  match cs with
  | [] => none
  | c :: rest =>
    if ¬ c.isDigit then none
    else
      let ids := if c = '0' then [c] else (c :: rest).takeWhile Char.isDigit
      let afterInt := if c = '0' then rest else (c :: rest).dropWhile Char.isDigit
      let (fds, afterFrac) := pyFracPart afterInt
      let (eds, afterExp) := pyExpPart afterFrac
      if fds.isEmpty ∧ eds.isEmpty then
        some (JsonValue.num
          (if neg then -(Int.ofNat (digitsToNat ids)) else Int.ofNat (digitsToNat ids)),
          afterInt)
      else
        some (JsonValue.flt
          (String.mk ((if neg then [ '-' ] else []) ++ ids ++ fds ++ eds)), afterExp)

/-- Insert a key into an object field list, overwriting the value at an
existing key in place, as Python dict insertion does. -/
def upsertField (fields : List (String × JsonValue)) (k : String) (v : JsonValue) :
    List (String × JsonValue) :=
  match fields with
  | [] => [(k, v)]
  | (k0, v0) :: rest =>
    if k0 = k then (k0, v) :: rest else (k0, v0) :: upsertField rest k v

/-- The pending parse obligation: a value, the members of an object
(with the fields parsed so far), or the items of an array. -/
inductive ParseTask where
  | value : ParseTask
  | members (acc : List (String × JsonValue)) : ParseTask
  | items (acc : List JsonValue) : ParseTask

def parseRun (fuel : Nat) (task : ParseTask) (cs : List Char) :
    Option (JsonValue × List Char) :=
  match fuel with
  | 0 => none
  | f + 1 =>
    match task with
    | ParseTask.members acc =>
      match skipWs cs with
      | [] => none
      | c :: rest =>
        if c = quoteCh then
          match parseStrChars (rest.length + 1) rest with
          | none => none
          | some (keyChars, rest2) =>
            match skipWs rest2 with
            | ':' :: rest3 =>
              match parseRun f ParseTask.value rest3 with
              | none => none
              | some (v, rest4) =>
                let acc2 := upsertField acc (String.mk keyChars) v
                match skipWs rest4 with
                | ',' :: rest5 => parseRun f (ParseTask.members acc2) rest5
                | c5 :: rest5 =>
                  if c5 = rbraceCh then some (JsonValue.obj acc2, rest5) else none
                | [] => none
            | _ => none
        else none
    | ParseTask.items acc =>
      match parseRun f ParseTask.value cs with
      | none => none
      | some (v, rest) =>
        match skipWs rest with
        | ',' :: rest2 => parseRun f (ParseTask.items (acc ++ [v])) rest2
        | ']' :: rest2 => some (JsonValue.arr (acc ++ [v]), rest2)
        | _ => none
    | ParseTask.value =>
      match skipWs cs with
      | [] => none
      | c :: rest =>
        if c = lbraceCh then
          match skipWs rest with
          | c2 :: rest2 =>
            if c2 = rbraceCh then some (JsonValue.obj [], rest2)
            else parseRun f (ParseTask.members []) (c2 :: rest2)
          | [] => none
        else if c = '[' then
          match skipWs rest with
          | c2 :: rest2 =>
            if c2 = ']' then some (JsonValue.arr [], rest2)
            else parseRun f (ParseTask.items []) (c2 :: rest2)
          | [] => none
        else if c = quoteCh then
          match parseStrChars (rest.length + 1) rest with
          | some (out, rest2) => some (JsonValue.str (String.mk out), rest2)
          | none => none
        else if c = 't' then
          match stripSeq [ 'r', 'u', 'e' ] rest with
          | some rest2 => some (JsonValue.bool true, rest2)
          | none => none
        else if c = 'f' then
          match stripSeq [ 'a', 'l', 's', 'e' ] rest with
          | some rest2 => some (JsonValue.bool false, rest2)
          | none => none
        else if c = 'n' then
          match stripSeq [ 'u', 'l', 'l' ] rest with
          | some rest2 => some (JsonValue.null, rest2)
          | none => none
        else if c = 'N' then
          match stripSeq [ 'a', 'N' ] rest with
          | some rest2 => some (JsonValue.flt ("NaN"), rest2)
          | none => none
        else if c = 'I' then
          match stripSeq [ 'n', 'f', 'i', 'n', 'i', 't', 'y' ] rest with
          | some rest2 => some (JsonValue.flt ("Infinity"), rest2)
          | none => none
        else if c = '-' then
          match stripSeq [ 'I', 'n', 'f', 'i', 'n', 'i', 't', 'y' ] rest with
          | some rest2 => some (JsonValue.flt ("-Infinity"), rest2)
          | none => parseNumberMatch true rest
        else if c.isDigit then
          parseNumberMatch false (c :: rest)
        else none

/-- Parse one JSON value. -/
def parseValue (fuel : Nat) (cs : List Char) : Option (JsonValue × List Char) :=
  parseRun fuel ParseTask.value cs

/-- Model of Python json.loads over the subset described above: parse one
value and require only whitespace to remain, returning none where
json.loads raises JSONDecodeError. -/
def json_loads (s : String) : Option JsonValue :=
  match parseValue (4 * s.toList.length + 8) s.toList with
  | none => none
  | some (v, rest) => if (skipWs rest).isEmpty then some v else none

/-! ## Conversation messages and graph state

Embedding of the langchain message kinds used by agent/graph.py:
HumanMessage, AIMessage (with its tool_calls list) and ToolMessage.
A tool call records the tool name and arguments; after the raw-JSON
coercion in call_model they can be arbitrary JSON values, so both
fields are JsonValue. -/

structure ToolCallReq where
  name : JsonValue
  args : JsonValue
  id : String
deriving Repr

inductive Message where
  | user (content : String) : Message
  | ai (content : String) (tool_calls : List ToolCallReq) : Message
  | toolResult (call_id : String) (content : String) : Message
deriving Repr

/-- Embedding of GraphState (agent/state.py module of the package; the
fields are those read and written by agent/graph.py and agent/agent.py). -/
structure GraphState where
  transcribed_text : String
  messages : List Message
  userinfo : List (String × String)
  thread_id : String
  voice : String
deriving Repr

/-- Configuration constant MESSAGE_PRUNING_LIMIT from src/config.py with
its default value 10 (the environment override is modelled by the
limit-parameterised variant of pruning below). -/
def MESSAGE_PRUNING_LIMIT : Nat := 10

/-- Model of the Python slice xs[-k:]. For k = 0 the slice is xs[0:],
the whole list; for k greater than the length it is also the whole
list; otherwise it keeps the last k elements. -/
def pySliceLast (k : Nat) (xs : List α) : List α :=
  if k = 0 then xs else xs.drop (xs.length - k)

/-- Embedding of prune_messages (agent/graph.py), parameterised by the
configured pruning limit. The returned value models the update dict:
some models returning the replacement messages list, none models
returning the empty dict. -/
def prune_messages_with (limit : Nat) (messages : List Message) : Option (List Message) :=
  if messages.length > limit then some (pySliceLast limit messages) else none

/-- prune_messages at the default configured MESSAGE_PRUNING_LIMIT. -/
def prune_messages (st : GraphState) : Option (List Message) :=
  prune_messages_with MESSAGE_PRUNING_LIMIT st.messages

/-- Modelled from the spec: applying a node update that carries a
replacement message list. The module agent/state.py of the package is
not among the provided sources; per spec section 3 and section 4.2 and
the source comment in prune_messages (the update overwrites the
messages key), the prune update replaces the history. Updates to other
keys are absent, so all other fields are untouched. -/
def applyReplace (st : GraphState) : Option (List Message) → GraphState
  | none => st
  | some ms => { st with messages := ms }

/-- Modelled from the spec: applying a node update that carries newly
produced messages. Per spec section 4.2, PrepareInput appends the user
utterance and Invoke appends the model message to message_history, so
these updates extend the history. -/
def applyAppend (st : GraphState) (new : List Message) : GraphState :=
  { st with messages := st.messages ++ new }

/-- The prune node as a state transformer. -/
def prune_node (st : GraphState) : GraphState :=
  applyReplace st (prune_messages st)

/-- Embedding of prepare_input (agent/graph.py): the returned list
models the update dict (empty list models the empty dict). The user
utterance is appended unless the last message is a ToolMessage; an
empty history has no last message, so the utterance is appended. -/
def prepare_input (st : GraphState) : List Message :=
  match st.messages.getLast? with
  | some (Message.toolResult _ _) => []
  | _ => [Message.user st.transcribed_text]

/-- The prepare_input node as a state transformer. -/
def prepare_input_node (st : GraphState) : GraphState :=
  applyAppend st (prepare_input st)

/-- The raw reply produced by the LLM chain inside call_model: its text
content and its structured tool_calls field. -/
structure LLMResponse where
  content : String
  tool_calls : List ToolCallReq
deriving Repr

/-- Embedding of call_model (agent/graph.py) after the chain invocation:
a response with structured tool calls is returned as is; otherwise, if
the content parses as a JSON object with a name key, it is re-formatted
into an AIMessage with empty content and a single tool call whose
arguments come from the parameters key (empty object when absent) and
whose id is a fresh uuid, modelled by the fresh_id argument; any other
content is returned as is. -/
def call_model (fresh_id : String) (response : LLMResponse) : Message :=
  if response.tool_calls.isEmpty then
    match json_loads response.content with
    | some (JsonValue.obj fields) =>
      match fields.lookup ("name") with
      | some nameVal =>
        Message.ai ("")
          [⟨nameVal, ((fields.lookup ("parameters")).getD (JsonValue.obj [])), fresh_id⟩]
      | none => Message.ai response.content response.tool_calls
    | _ => Message.ai response.content response.tool_calls
  else
    Message.ai response.content response.tool_calls

/-- The call_model node as a state transformer: the produced message is
a new message for the history. -/
def call_model_node (fresh_id : String) (response : LLMResponse) (st : GraphState) :
    GraphState :=
  applyAppend st [call_model fresh_id response]

inductive Route where
  | executeTools : Route
  | endTurn : Route
deriving Repr, DecidableEq

/-- Embedding of should_continue (agent/graph.py): inspects the last
message and routes on its tool_calls. none models the Python exception
raised when the history is empty (IndexError) or the last message has
no tool_calls attribute (AttributeError on non-AI messages). -/
def should_continue (st : GraphState) : Option Route :=
  match st.messages.getLast? with
  | some (Message.ai _ tcs) =>
    some (if tcs.isEmpty then Route.endTurn else Route.executeTools)
  | some _ => none
  | none => none

/-- The tool_calls carried by a message: empty for non-AI messages. -/
def messageToolCalls : Message → List ToolCallReq
  | Message.ai _ tcs => tcs
  | _ => []

def isToolResult : Message → Bool
  | Message.toolResult _ _ => true
  | _ => false

def lastIsToolResult (msgs : List Message) : Bool :=
  match msgs.getLast? with
  | some (Message.toolResult _ _) => true
  | _ => false

/-- Scan of a history checking that every ToolResult is preceded by an
AI message carrying a tool call with the same call_id. -/
def pairedAux (seen : List String) : List Message → Bool
  | [] => true
  | Message.toolResult cid _ :: rest => seen.contains cid && pairedAux seen rest
  | Message.ai _ tcs :: rest => pairedAux (tcs.map (fun tc => tc.id) ++ seen) rest
  | Message.user _ :: rest => pairedAux seen rest

/-- A history is well paired when no ToolResult appears without a
matching preceding AssistantToolCall with the same call_id. -/
def toolResultsPaired (msgs : List Message) : Bool :=
  pairedAux [] msgs

/-- The entry of the reasoning graph up to the model invocation:
prepare_input then prune, as wired in create_reasoning_engine. The
result is the message list the model invocation receives. -/
def modelInputMessages (st : GraphState) : List Message :=
  (prune_node (prepare_input_node st)).messages

/-- The message history that results from the Prune step: the
replacement list when the node returned one, the untouched history
otherwise. -/
def pruneResult (limit : Nat) (msgs : List Message) : List Message :=
  (prune_messages_with limit msgs).getD msgs

/-- Whether a parsed JSON value is an object carrying a name key, the
trigger condition of the raw tool-call coercion in call_model. -/
def jsonObjWithName : JsonValue → Bool
  | JsonValue.obj fields => (fields.lookup ("name")).isSome
  | _ => false

/-! ## STT streaming client

Embedding of STTClient.transcript_generator (clients/stt_client.py) as a
labelled transition system. One iteration of the outer reconnect loop is
driven by the shutdown flag observed at the loop head and by the outcome
of the connection attempt; it emits the sequence of observable events of
that iteration, in program order, and says whether the loop continues. -/

/-- Observable events of the generator: a connection attempt, the start
of the concurrent audio-forwarding task, a yielded transcript message,
the fixed retry sleep, and the cancel-and-await of the forwarding task
performed by the finally block. -/
inductive SttEvent where
  | connectAttempt : SttEvent
  | forwarderStart : SttEvent
  | yieldMsg (s : String) : SttEvent
  | sleepRetry (d : Nat) : SttEvent
  | forwarderCancelAwait : SttEvent
deriving Repr, DecidableEq

/-- How one connection attempt ends. connectRefused: websocket_connect
raised ConnectionRefusedError, so the forwarder never started; the flag
is the shutdown check made inside the except clause. recvClosed: the
connection was established, the listed messages were yielded, then
ConnectionClosed was raised. shutdownObserved: the inner receive loop
saw the shutdown event set and exited normally. unexpectedChoke /
unexpectedAfterConnect: an exception of an unexpected class, before or
after the connection was established. -/
inductive SttOutcome where
  | connectRefused (shutdownAtCatch : Bool) : SttOutcome
  | recvClosed (yielded : List String) (shutdownAtCatch : Bool) : SttOutcome
  | shutdownObserved (yielded : List String) : SttOutcome
  | unexpectedChoke : SttOutcome
  | unexpectedAfterConnect (yielded : List String) : SttOutcome
deriving Repr

inductive SttNext where
  | keepLooping : SttNext
  | stopped : SttNext
deriving Repr, DecidableEq

/-- One iteration of the while loop of transcript_generator. Python
evaluates the except clause before the finally block, so on a transient
error with shutdown unset the retry sleep precedes the forwarder
cancel; the finally block runs before a break or an exception leaves
the loop. After shutdownObserved the loop head re-checks the flag,
which asyncio.Event never clears here, so the generator stops. -/
def sttIteration (d : Nat) (shutdownAtLoopHead : Bool) (oc : SttOutcome) :
    List SttEvent × SttNext :=
  if shutdownAtLoopHead then ([], SttNext.stopped)
  else
    match oc with
    | SttOutcome.connectRefused b =>
      if b then ([SttEvent.connectAttempt], SttNext.stopped)
      else ([SttEvent.connectAttempt, SttEvent.sleepRetry d], SttNext.keepLooping)
    | SttOutcome.recvClosed ys b =>
      if b then
        ([SttEvent.connectAttempt, SttEvent.forwarderStart] ++ ys.map SttEvent.yieldMsg
          ++ [SttEvent.forwarderCancelAwait], SttNext.stopped)
      else
        ([SttEvent.connectAttempt, SttEvent.forwarderStart] ++ ys.map SttEvent.yieldMsg
          ++ [SttEvent.sleepRetry d, SttEvent.forwarderCancelAwait], SttNext.keepLooping)
    | SttOutcome.shutdownObserved ys =>
      ([SttEvent.connectAttempt, SttEvent.forwarderStart] ++ ys.map SttEvent.yieldMsg
        ++ [SttEvent.forwarderCancelAwait], SttNext.stopped)
    | SttOutcome.unexpectedChoke =>
      ([SttEvent.connectAttempt], SttNext.stopped)
    | SttOutcome.unexpectedAfterConnect ys =>
      ([SttEvent.connectAttempt, SttEvent.forwarderStart] ++ ys.map SttEvent.yieldMsg
        ++ [SttEvent.forwarderCancelAwait], SttNext.stopped)

/-- The full run of the generator over a schedule of loop-head flags and
attempt outcomes: the concatenated event trace, stopping as soon as an
iteration ends the loop. -/
def sttRun (d : Nat) : List (Bool × SttOutcome) → List SttEvent
  | [] => []
  | (f, oc) :: rest =>
    match sttIteration d f oc with
    | (tr, SttNext.keepLooping) => tr ++ sttRun d rest
    | (tr, SttNext.stopped) => tr

/-- Checker that the forwarding task never outlives its connection
attempt: scanning the trace, no connection attempt may occur while a
previously started forwarder has not been cancelled and awaited. -/
def noDanglingForwarder : Bool → List SttEvent → Bool
  | _, [] => true
  | opened, SttEvent.connectAttempt :: r => !opened && noDanglingForwarder false r
  | _, SttEvent.forwarderStart :: r => noDanglingForwarder true r
  | _, SttEvent.forwarderCancelAwait :: r => noDanglingForwarder false r
  | opened, SttEvent.yieldMsg _ :: r => noDanglingForwarder opened r
  | opened, SttEvent.sleepRetry _ :: r => noDanglingForwarder opened r

/-! ## TTS client

Embedding of TTSClient.synthesize_speech and close
(clients/tts_client.py). The connection state is a Bool: whether a
client connection is cached. The inbound stream of one synthesize call
is a script of read results. -/

inductive TtsEvent where
  | audioStart (rate width channels : Nat) : TtsEvent
  | audioChunk (audio : List Nat) : TtsEvent
  | audioStop : TtsEvent
  | errorEvent (text : String) : TtsEvent
  | otherEvent (ty : String) : TtsEvent
deriving Repr, DecidableEq

/-- One read from the connection: a framed event, a None return
(connection closed by the server), or a raised exception. -/
inductive TtsReadItem where
  | ev (e : TtsEvent) : TtsReadItem
  | closedNone : TtsReadItem
  | raiseExc : TtsReadItem
deriving Repr, DecidableEq

/-- Outcome of the read loop of synthesize_speech: finished models
breaking out at AudioStop or an error event (returning the assembled
audio when any chunk was written, none otherwise, with the connection
kept); connLost models read_event returning None or a read raising
(the connection is closed and discarded and the call returns none);
blocked models a script that ends before the loop does, where the real
code would wait on read_event forever. -/
inductive SynthOutcome where
  | finished (audio : Option (List (List Nat))) : SynthOutcome
  | connLost : SynthOutcome
  | blocked : SynthOutcome
deriving Repr, DecidableEq

/-- The while loop of synthesize_speech. wavParams models wav_writer
(set at AudioStart), frames the written chunks, audioReceived the
audio_received flag. Chunks arriving before AudioStart are dropped
because wav_writer is still None; unknown event types fall through all
branches and the loop just reads again. -/
def ttsReadLoop (wavParams : Option (Nat × Nat × Nat)) (frames : List (List Nat))
    (audioReceived : Bool) : List TtsReadItem → SynthOutcome
  | [] => SynthOutcome.blocked
  | TtsReadItem.closedNone :: _ => SynthOutcome.connLost
  | TtsReadItem.raiseExc :: _ => SynthOutcome.connLost
  | TtsReadItem.ev (TtsEvent.audioStart r w c) :: rest =>
    ttsReadLoop (some (r, w, c)) frames audioReceived rest
  | TtsReadItem.ev (TtsEvent.audioChunk a) :: rest =>
    match wavParams with
    | some _ => ttsReadLoop wavParams (frames ++ [a]) true rest
    | none => ttsReadLoop none frames audioReceived rest
  | TtsReadItem.ev TtsEvent.audioStop :: _ =>
    SynthOutcome.finished (if audioReceived then some frames else none)
  | TtsReadItem.ev (TtsEvent.errorEvent _) :: _ =>
    SynthOutcome.finished (if audioReceived then some frames else none)
  | TtsReadItem.ev (TtsEvent.otherEvent _) :: rest =>
    ttsReadLoop wavParams frames audioReceived rest

/-- Model of _ensure_connected: when no client is cached a new
connection is established (the retry loop runs until it succeeds), and
an existing client is reused. Returns the connected state and whether a
new connection was made. -/
def ensure_connected (client : Bool) : Bool × Bool :=
  if client then (true, false) else (true, true)

/-- Embedding of synthesize_speech: the result of one call given the
cached-connection state and the scripted reads. none models a call that
never returns because the script ran out; otherwise the pair is the
returned audio (none for a failed or silent synthesis) and the
connection state left behind (false after close discarded it). -/
def synthesize_speech (client : Bool) (reads : List TtsReadItem) :
    Option (Option (List (List Nat)) × Bool) :=
  let connected := (ensure_connected client).1
  if connected then
    match ttsReadLoop none [] false reads with
    | SynthOutcome.finished audio => some (audio, true)
    | SynthOutcome.connLost => some (none, false)
    | SynthOutcome.blocked => none
  else
    some (none, client)

/-- A read item that keeps the synthesis loop reading: a start, chunk
or unknown-typed event. Stop events, error events, a None read and a
raised exception all end the loop. -/
def nonTerminalRead : TtsReadItem → Bool
  | TtsReadItem.ev (TtsEvent.audioStart _ _ _) => true
  | TtsReadItem.ev (TtsEvent.audioChunk _) => true
  | TtsReadItem.ev (TtsEvent.otherEvent _) => true
  | _ => false

def isChunkRead : TtsReadItem → Bool
  | TtsReadItem.ev (TtsEvent.audioChunk _) => true
  | _ => false

/-! ## Tool registry

Embedding of ToolRegistry (tools/registry.py). A provider class is
identified by its name and carries its get_tools result when the class
has that attribute. A provider instance records the class it was built
from and a construction counter value, so that at-most-once
construction is observable. -/

structure ProviderClass where
  name : String
  toolsOf : Option (List String)
deriving Repr, DecidableEq

structure ProviderInstance where
  cls : ProviderClass
  cid : Nat
deriving Repr, DecidableEq

structure ToolRegistry where
  tool_providers : List ProviderClass
  tool_instances : List (ProviderClass × ProviderInstance)
  next_cid : Nat
deriving Repr, DecidableEq

/-- Embedding of ToolRegistry.register_provider: append the class to the
provider list unless it is already recorded. -/
def register_provider (p : ProviderClass) (r : ToolRegistry) : ToolRegistry :=
  if p ∈ r.tool_providers then r
  else { r with tool_providers := r.tool_providers ++ [p] }

/-- register_provider iterated n times with the same class. -/
def register_provider_iter (n : Nat) (p : ProviderClass) (r : ToolRegistry) : ToolRegistry :=
  match n with
  | 0 => r
  | k + 1 => register_provider p (register_provider_iter k p r)

/-- Cache lookup in the instance map, keyed by the provider class. -/
def findInstance (p : ProviderClass) :
    List (ProviderClass × ProviderInstance) → Option ProviderInstance
  | [] => none
  | (k, i) :: rest => if k = p then some i else findInstance p rest

/-- Embedding of ToolRegistry._get_provider_instance: return the cached
instance when one exists, otherwise construct one (consuming the next
construction counter value) and cache it. -/
def get_provider_instance (p : ProviderClass) (r : ToolRegistry) :
    ProviderInstance × ToolRegistry :=
  match findInstance p r.tool_instances with
  | some i => (i, r)
  | none =>
    let i : ProviderInstance := ⟨p, r.next_cid⟩
    let r2 : ToolRegistry :=
      { r with
        tool_instances := r.tool_instances ++ [(p, i)]
        next_cid := r.next_cid + 1 }
    (i, r2)

/-- The tools contributed by an instance: its get_tools result when the
class has the attribute, nothing otherwise (hasattr check). -/
def instanceTools (i : ProviderInstance) : List String :=
  match i.cls.toolsOf with
  | some ts => ts
  | none => []

/-- The collection loop of get_all_tools over a list of provider
classes, threading the registry through the lazy instantiations. -/
def collectTools : List ProviderClass → ToolRegistry → List String × ToolRegistry
  | [], r => ([], r)
  | p :: ps, r =>
    let (i, r2) := get_provider_instance p r
    let (rest, r3) := collectTools ps r2
    (instanceTools i ++ rest, r3)

/-- Embedding of ToolRegistry.get_all_tools. -/
def get_all_tools (r : ToolRegistry) : List String × ToolRegistry :=
  collectTools r.tool_providers r

/-! ## Session supervisor shutdown

Embedding of the finally block of ConnectionManager.handle_connection
together with _cancel_tasks (connection_manager.py). A session task is
described by whether it had already completed when shutdown triggered
and, once cancelled, after how many steps it acknowledges the
cancellation (none when it never does). -/

/-- Configuration constant SHUTDOWN_TIMEOUT from src/config.py, default
5 (seconds, modelled in whole steps). The current supervisor never
consults it. -/
def SHUTDOWN_TIMEOUT : Nat := 5

structure SessionTask where
  done : Bool
  ackAt : Option Nat
deriving Repr, DecidableEq

/-- When awaiting this task returns: immediately for an already
completed task, at its acknowledgement time for a cancelled task, and
never for a task that never acknowledges. -/
def task_finish_time (t : SessionTask) : Option Nat :=
  if t.done then some 0 else t.ackAt

/-- Model of the plain asyncio.gather in _cancel_tasks: it returns once
every task has finished, at the latest finish time, and never returns
while any task has not finished. There is no timeout around it. -/
def gather_completion : List SessionTask → Option Nat
  | [] => some 0
  | t :: ts =>
    match task_finish_time t, gather_completion ts with
    | some a, some b => some (Nat.max a b)
    | _, _ => none

structure ShutdownResult where
  flag_set : Bool
  cancel_signalled : List Bool
  completion : Option Nat
  tts_closed : Bool
deriving Repr, DecidableEq

/-- Embedding of the shutdown path: the finally block sets the shutdown
event, _cancel_tasks calls cancel on every task that is not done and
then awaits the gather, and only after the gather returns is
tts_client.close() reached. -/
def shutdown_sequence (tasks : List SessionTask) : ShutdownResult :=
  let comp := gather_completion tasks
  { flag_set := true
    cancel_signalled := tasks.map (fun t => !t.done)
    completion := comp
    tts_closed := comp.isSome }

/-! ## Supporting lemmas -/

theorem prepare_input_eq_user (st : GraphState)
    (h : lastIsToolResult st.messages = false) :
    prepare_input st = [Message.user st.transcribed_text] := by
  unfold lastIsToolResult at h
  unfold prepare_input
  cases hm : st.messages.getLast? with
  | none => simp
  | some m =>
    cases m with
    | user c => simp
    | ai c t => simp
    | toolResult a b => rw [hm] at h; simp at h

theorem prepare_input_node_messages (st : GraphState) :
    (prepare_input_node st).messages = st.messages ++ prepare_input st := rfl

/-! ## Claim C1 -/

/-- A history of eleven messages beginning with a matched tool-call and
tool-result pair: a concrete input on which slice-based pruning splits
the pair. -/
def c1badHistory : List Message :=
  Message.ai ("") [⟨JsonValue.str ("t"), JsonValue.obj [], "c1"⟩] ::
    Message.toolResult ("c1") ("ok") :: List.replicate 9 (Message.user ("m"))

/-- C1 counterexample: the seeded history is well paired and one over
the default limit of 10, yet after the Prune step the surviving history
contains the ToolResult with call_id c1 without its matching preceding
AssistantToolCall, so tool-call/tool-result pairs are split rather than
evicted as a unit. Moreover, at pruning limit 0 the Python slice
messages[-0:] keeps the whole history, so the length bound of the claim
also fails for that limit. -/
theorem C1_counterexample :
    toolResultsPaired c1badHistory = true ∧
    c1badHistory.length = 11 ∧
    toolResultsPaired (pruneResult MESSAGE_PRUNING_LIMIT c1badHistory) = false ∧
    ¬ ((pruneResult 0 [Message.user ("x")]).length ≤ 0) := by
  refine ⟨by decide, by decide, by decide, by decide⟩

/-- C1 (amended): for every pruning limit of at least one and every
history, after the Prune step the history length is at most the limit
and the surviving history is a suffix of the original one (oldest
messages evicted first); when the history exceeds the limit exactly the
most recent limit messages survive. Tool-call/tool-result pairing is
not preserved: a ToolResult may survive while its matching
AssistantToolCall is evicted. -/
theorem C1_prune_amended (limit : Nat) (msgs : List Message) (h : 1 ≤ limit) :
    (pruneResult limit msgs).length ≤ limit ∧
    (pruneResult limit msgs) <:+ msgs ∧
    (limit < msgs.length → pruneResult limit msgs = msgs.drop (msgs.length - limit)) := by
  have hres : pruneResult limit msgs
      = if msgs.length > limit then msgs.drop (msgs.length - limit) else msgs := by
    unfold pruneResult prune_messages_with pySliceLast
    by_cases hlen : msgs.length > limit
    · rw [if_pos hlen, if_pos hlen, if_neg (show ¬ limit = 0 by omega), Option.getD_some]
    · rw [if_neg hlen, if_neg hlen, Option.getD_none]
  by_cases hlen : msgs.length > limit
  · rw [hres, if_pos hlen]
    refine ⟨?_, List.drop_suffix _ _, fun _ => rfl⟩
    rw [List.length_drop]
    omega
  · rw [hres, if_neg hlen]
    have hle : msgs.length ≤ limit := by omega
    exact ⟨hle, List.suffix_refl _, fun hc => absurd hc hlen⟩

/-- C1 witness: the amended statement evaluated at the default limit on
the concrete eleven-message history. -/
theorem C1_prune_amended_witness :
    1 ≤ MESSAGE_PRUNING_LIMIT ∧
    ((pruneResult MESSAGE_PRUNING_LIMIT c1badHistory).length ≤ MESSAGE_PRUNING_LIMIT ∧
      (pruneResult MESSAGE_PRUNING_LIMIT c1badHistory) <:+ c1badHistory ∧
      (MESSAGE_PRUNING_LIMIT < c1badHistory.length →
        pruneResult MESSAGE_PRUNING_LIMIT c1badHistory
          = c1badHistory.drop (c1badHistory.length - MESSAGE_PRUNING_LIMIT))) :=
  ⟨by decide, C1_prune_amended MESSAGE_PRUNING_LIMIT c1badHistory (by decide)⟩

/-! ## Claim C4 -/

/-- C4: with the configured limit of 10, whenever the history exceeds
the limit the Prune step keeps exactly the 10 most recent messages
(evicting the oldest first); and in the concrete scenario of a
10-message seeded history with one more user utterance submitted, the
model invocation receives exactly 10 messages, the 9 most recent prior
messages followed by the new user message. -/
theorem C4_prune_exact (msgs : List Message) (st : GraphState)
    (hgt : MESSAGE_PRUNING_LIMIT < msgs.length)
    (hlen : st.messages.length = 10)
    (hlast : lastIsToolResult st.messages = false) :
    (prune_messages_with MESSAGE_PRUNING_LIMIT msgs
        = some (msgs.drop (msgs.length - MESSAGE_PRUNING_LIMIT)) ∧
      (pruneResult MESSAGE_PRUNING_LIMIT msgs).length = MESSAGE_PRUNING_LIMIT) ∧
    (modelInputMessages st = st.messages.drop 1 ++ [Message.user st.transcribed_text] ∧
      (modelInputMessages st).length = 10) := by
  have hlim : MESSAGE_PRUNING_LIMIT = 10 := rfl
  constructor
  · have hcond : msgs.length > MESSAGE_PRUNING_LIMIT := hgt
    have hsome : prune_messages_with MESSAGE_PRUNING_LIMIT msgs
        = some (msgs.drop (msgs.length - MESSAGE_PRUNING_LIMIT)) := by
      unfold prune_messages_with pySliceLast
      rw [if_pos hcond, if_neg (show ¬ MESSAGE_PRUNING_LIMIT = 0 by omega)]
    refine ⟨hsome, ?_⟩
    unfold pruneResult
    rw [hsome, Option.getD_some, List.length_drop]
    omega
  · have hprep : (prepare_input_node st).messages
        = st.messages ++ [Message.user st.transcribed_text] := by
      rw [prepare_input_node_messages, prepare_input_eq_user st hlast]
    have hlen2 : (prepare_input_node st).messages.length = 11 := by
      rw [hprep]; simp [hlen]
    have hcond : (prepare_input_node st).messages.length > MESSAGE_PRUNING_LIMIT := by
      omega
    have hdrop : ((prepare_input_node st).messages).drop 1
        = st.messages.drop 1 ++ [Message.user st.transcribed_text] := by
      rw [hprep, List.drop_append_eq_append_drop]
      have : 1 - st.messages.length = 0 := by omega
      rw [this]
      rfl
    have hmain : modelInputMessages st
        = st.messages.drop 1 ++ [Message.user st.transcribed_text] := by
      unfold modelInputMessages prune_node applyReplace prune_messages
        prune_messages_with pySliceLast
      simp only [hcond, if_true, gt_iff_lt]
      have hz : MESSAGE_PRUNING_LIMIT ≠ 0 := by omega
      simp only [hz, if_false, hlen2, hlim]
      exact hdrop
    refine ⟨hmain, ?_⟩
    rw [hmain]
    simp [List.length_drop, hlen]

/-- Concrete seeded history of 5 user/assistant turn pairs. -/
def c4Seed : List Message :=
  [Message.user ("m1"), Message.ai ("r1") [], Message.user ("m2"), Message.ai ("r2") [],
    Message.user ("m3"), Message.ai ("r3") [], Message.user ("m4"), Message.ai ("r4") [],
    Message.user ("m5"), Message.ai ("r5") []]

/-- Concrete state for the C4 scenario: the seeded history and the new
user utterance. -/
def c4State : GraphState :=
  { transcribed_text := "What was the first thing I told you?"
    messages := c4Seed
    userinfo := []
    thread_id := "t"
    voice := "v" }

/-- C4 witness: the theorem evaluated on the concrete scenario. -/
theorem C4_prune_exact_witness :
    MESSAGE_PRUNING_LIMIT < (c4Seed ++ [Message.user ("x")]).length ∧
    c4State.messages.length = 10 ∧
    lastIsToolResult c4State.messages = false ∧
    ((prune_messages_with MESSAGE_PRUNING_LIMIT (c4Seed ++ [Message.user ("x")])
        = some ((c4Seed ++ [Message.user ("x")]).drop
            ((c4Seed ++ [Message.user ("x")]).length - MESSAGE_PRUNING_LIMIT)) ∧
      (pruneResult MESSAGE_PRUNING_LIMIT (c4Seed ++ [Message.user ("x")])).length
        = MESSAGE_PRUNING_LIMIT) ∧
    (modelInputMessages c4State
        = c4State.messages.drop 1 ++ [Message.user c4State.transcribed_text] ∧
      (modelInputMessages c4State).length = 10)) :=
  ⟨by decide, by decide, by decide,
    C4_prune_exact (c4Seed ++ [Message.user ("x")]) c4State
      (by decide) (by decide) (by decide)⟩

/-! ## Claim C5 -/

/-- C5: the PrepareInput step appends the new user utterance if and
only if the last message of the history is not a tool-result message;
when the last message is a tool result the update is empty and the
state is left completely unchanged. -/
theorem C5_prepare_input_guard (st : GraphState) :
    ((prepare_input_node st).messages = st.messages ++ prepare_input st) ∧
    (prepare_input st = [Message.user st.transcribed_text]
      ↔ lastIsToolResult st.messages = false) ∧
    (lastIsToolResult st.messages = true →
      prepare_input st = [] ∧ prepare_input_node st = st) := by
  refine ⟨rfl, ?_, ?_⟩
  · unfold prepare_input lastIsToolResult
    cases hm : st.messages.getLast? with
    | none => simp
    | some m =>
      cases m with
      | user c => simp
      | ai c t => simp
      | toolResult a b => simp
  · intro h
    unfold lastIsToolResult at h
    have hpi : prepare_input st = [] := by
      unfold prepare_input
      cases hm : st.messages.getLast? with
      | none => rw [hm] at h; simp at h
      | some m =>
        cases m with
        | user c => rw [hm] at h; simp at h
        | ai c t => rw [hm] at h; simp at h
        | toolResult a b => simp
    refine ⟨hpi, ?_⟩
    unfold prepare_input_node applyAppend
    rw [hpi]
    simp

/-- Concrete state whose last message is a tool result. -/
def c5State : GraphState :=
  { transcribed_text := "hello"
    messages := [Message.toolResult ("c") ("r")]
    userinfo := []
    thread_id := "t"
    voice := "v" }

/-- C5 witness: on the concrete state ending in a tool result, the
update is empty and the state is unchanged. -/
theorem C5_prepare_input_guard_witness :
    lastIsToolResult c5State.messages = true ∧
    (prepare_input c5State = [] ∧ prepare_input_node c5State = c5State) :=
  ⟨by decide, (C5_prepare_input_guard c5State).2.2 (by decide)⟩

/-! ## Claim C10 -/

/-- C10: for every history whose length is at most the configured
pruning limit, the Prune step returns the empty update and leaves the
state completely unchanged; and in every case pruning can modify only
the messages field, never the other state fields. -/
theorem C10_prune_frame :
    (∀ st : GraphState, st.messages.length ≤ MESSAGE_PRUNING_LIMIT →
      prune_messages st = none ∧ prune_node st = st) ∧
    (∀ st : GraphState,
      (prune_node st).transcribed_text = st.transcribed_text ∧
      (prune_node st).userinfo = st.userinfo ∧
      (prune_node st).thread_id = st.thread_id ∧
      (prune_node st).voice = st.voice) := by
  constructor
  · intro st h
    have hnone : prune_messages st = none := by
      unfold prune_messages prune_messages_with
      have : ¬ (st.messages.length > MESSAGE_PRUNING_LIMIT) := by omega
      simp [this]
    exact ⟨hnone, by unfold prune_node; rw [hnone]; rfl⟩
  · intro st
    unfold prune_node applyReplace
    cases prune_messages st with
    | none => exact ⟨rfl, rfl, rfl, rfl⟩
    | some ms => exact ⟨rfl, rfl, rfl, rfl⟩

/-- Concrete state with a two-message history, under the limit. -/
def c10State : GraphState :=
  { transcribed_text := "hi"
    messages := [Message.user ("a"), Message.ai ("b") []]
    userinfo := []
    thread_id := "t"
    voice := "v" }

/-- C10 witness: the frame property evaluated on the concrete state. -/
theorem C10_prune_frame_witness :
    c10State.messages.length ≤ MESSAGE_PRUNING_LIMIT ∧
    (prune_messages c10State = none ∧ prune_node c10State = c10State) :=
  ⟨by decide, C10_prune_frame.1 c10State (by decide)⟩

/-! ## Claim C3 -/

/-- Characterisation of call_model on responses without a structured
tool-call field. -/
theorem call_model_eq_of_no_tool_calls (fresh : String) (resp : LLMResponse)
    (hplain : resp.tool_calls = []) :
    call_model fresh resp =
      match json_loads resp.content with
      | some (JsonValue.obj fields) =>
        match fields.lookup ("name") with
        | some nameVal =>
          Message.ai ("")
            [⟨nameVal, ((fields.lookup ("parameters")).getD (JsonValue.obj [])), fresh⟩]
        | none => Message.ai resp.content []
      | _ => Message.ai resp.content [] := by
  unfold call_model
  rw [hplain]
  exact rfl

/-- C3: a model response with no structured tool calls whose content
parses as a JSON object containing a name key is reinterpreted as an
AIMessage with empty content and exactly one tool call, named by the
name key, with arguments from the parameters key (empty object when
absent); content that does not parse as JSON, or parses to anything
other than an object with a name key, is returned unchanged as plain
text. -/
theorem C3_call_model_coercion (fresh : String) (resp : LLMResponse)
    (hplain : resp.tool_calls = []) :
    (∀ (fields : List (String × JsonValue)) (nameVal : JsonValue),
      json_loads resp.content = some (JsonValue.obj fields) →
      fields.lookup ("name") = some nameVal →
      call_model fresh resp
        = Message.ai ("")
            [⟨nameVal, ((fields.lookup ("parameters")).getD (JsonValue.obj [])), fresh⟩]) ∧
    (json_loads resp.content = none →
      call_model fresh resp = Message.ai resp.content []) ∧
    (∀ v : JsonValue, json_loads resp.content = some v → jsonObjWithName v = false →
      call_model fresh resp = Message.ai resp.content []) := by
  refine ⟨?_, ?_, ?_⟩
  · intro fields nameVal hjson hname
    rw [call_model_eq_of_no_tool_calls fresh resp hplain, hjson]
    simp only [hname]
  · intro hnone
    rw [call_model_eq_of_no_tool_calls fresh resp hplain, hnone]
  · intro v hjson hv
    rw [call_model_eq_of_no_tool_calls fresh resp hplain, hjson]
    cases v with
    | obj fields =>
      simp only [jsonObjWithName] at hv
      cases hl : fields.lookup ("name") with
      | some x => rw [hl] at hv; simp at hv
      | none => simp only [hl]
    | null => rfl
    | bool b => rfl
    | num n => rfl
    | flt raw => rfl
    | str s => rfl
    | arr xs => rfl

/-- The literal raw tool-call content of the testable property, with no
structured tool-call field. -/
def c3RawResp : LLMResponse :=
  { content := "\x7b\"name\": \"X\", \"parameters\": \x7b\x7d\x7d", tool_calls := [] }

/-- A plain-text response that is not valid JSON. -/
def c3PlainResp : LLMResponse :=
  { content := "I am happy to help.", tool_calls := [] }

/-- A raw tool call whose parameters carry a float value, which
json.loads parses. -/
def c3FloatResp : LLMResponse :=
  { content := "\x7b\"name\": \"X\", \"parameters\": \x7b\"v\": 1.5\x7d\x7d"
    tool_calls := [] }

/-- A raw tool call whose parameters value has a leading zero, which
json.loads rejects. -/
def c3LeadZeroResp : LLMResponse :=
  { content := "\x7b\"name\": \"X\", \"parameters\": 007\x7d", tool_calls := [] }

/-- C3 witness: the coercion evaluated on the literal raw tool call of
the testable property, the unchanged result on plain text, the
coercion on a raw tool call with float-valued parameters, and the
unchanged result on a leading-zero number that json.loads rejects. -/
theorem C3_call_model_coercion_witness :
    c3RawResp.tool_calls = [] ∧
    json_loads c3RawResp.content
      = some (JsonValue.obj
          [("name", JsonValue.str ("X")), ("parameters", JsonValue.obj [])]) ∧
    call_model ("id0") c3RawResp
      = Message.ai ("") [⟨JsonValue.str ("X"), JsonValue.obj [], "id0"⟩] ∧
    json_loads c3PlainResp.content = none ∧
    call_model ("id0") c3PlainResp = Message.ai c3PlainResp.content [] ∧
    json_loads c3FloatResp.content
      = some (JsonValue.obj
          [("name", JsonValue.str ("X")),
            ("parameters", JsonValue.obj [("v", JsonValue.flt ("1.5"))])]) ∧
    call_model ("id0") c3FloatResp
      = Message.ai ("")
          [⟨JsonValue.str ("X"), JsonValue.obj [("v", JsonValue.flt ("1.5"))], "id0"⟩] ∧
    json_loads c3LeadZeroResp.content = none ∧
    call_model ("id0") c3LeadZeroResp = Message.ai c3LeadZeroResp.content [] :=
  ⟨rfl, rfl,
    (C3_call_model_coercion ("id0") c3RawResp rfl).1
      [("name", JsonValue.str ("X")), ("parameters", JsonValue.obj [])]
      (JsonValue.str ("X")) rfl rfl,
    rfl,
    (C3_call_model_coercion ("id0") c3PlainResp rfl).2.1 rfl,
    rfl,
    (C3_call_model_coercion ("id0") c3FloatResp rfl).1
      [("name", JsonValue.str ("X")),
        ("parameters", JsonValue.obj [("v", JsonValue.flt ("1.5"))])]
      (JsonValue.str ("X")) rfl rfl,
    rfl,
    (C3_call_model_coercion ("id0") c3LeadZeroResp rfl).2.1 rfl⟩

/-! ## Claim C6 -/

/-- call_model always produces an AI message. -/
theorem call_model_shape (fresh : String) (resp : LLMResponse) :
    ∃ c tcs, call_model fresh resp = Message.ai c tcs := by
  unfold call_model
  repeat' split
  all_goals exact ⟨_, _, rfl⟩

/-- C6: after the Invoke step, the loop routes to execute_tools if and
only if the produced model message carries at least one tool call, and
otherwise ends the turn with that message as the last message of the
history; in particular a plain-text reply with no tool calls ends the
turn after a single Invoke. -/
theorem C6_decide_route (st : GraphState) (fresh : String) (resp : LLMResponse) :
    (should_continue (call_model_node fresh resp st) = some Route.executeTools
      ↔ messageToolCalls (call_model fresh resp) ≠ []) ∧
    (should_continue (call_model_node fresh resp st) = some Route.endTurn
      ↔ messageToolCalls (call_model fresh resp) = []) ∧
    (resp.tool_calls = [] → json_loads resp.content = none →
      call_model fresh resp = Message.ai resp.content [] ∧
      should_continue (call_model_node fresh resp st) = some Route.endTurn ∧
      (call_model_node fresh resp st).messages.getLast?
        = some (Message.ai resp.content [])) := by
  obtain ⟨c, tcs, hm⟩ := call_model_shape fresh resp
  have hlast : (call_model_node fresh resp st).messages.getLast?
      = some (Message.ai c tcs) := by
    unfold call_model_node applyAppend
    rw [List.getLast?_concat, hm]
  have hsc : should_continue (call_model_node fresh resp st)
      = some (if tcs.isEmpty then Route.endTurn else Route.executeTools) := by
    unfold should_continue
    rw [hlast]
  have htc : messageToolCalls (call_model fresh resp) = tcs := by
    rw [hm]
    rfl
  refine ⟨?_, ?_, ?_⟩
  · rw [hsc, htc]
    cases tcs with
    | nil => simp
    | cons a l => simp
  · rw [hsc, htc]
    cases tcs with
    | nil => simp
    | cons a l => simp
  · intro h1 h2
    have hcm : call_model fresh resp = Message.ai resp.content [] := by
      rw [call_model_eq_of_no_tool_calls fresh resp h1, h2]
    have htcs : tcs = [] := by
      rw [hcm] at hm
      cases hm
      rfl
    refine ⟨hcm, ?_, ?_⟩
    · rw [hsc, htcs]
      rfl
    · rw [hlast, htcs]
      rw [hcm] at hm
      cases hm
      rfl

/-- Concrete state for the C6 witness. -/
def c6State : GraphState :=
  { transcribed_text := "what time is it"
    messages := [Message.user ("what time is it")]
    userinfo := []
    thread_id := "t"
    voice := "v" }

/-- A plain-text model reply with no tool calls. -/
def c6Resp : LLMResponse :=
  { content := "Sure, the time is noon.", tool_calls := [] }

/-- C6 witness: a plain-text reply ends the turn after one Invoke. -/
theorem C6_decide_route_witness :
    c6Resp.tool_calls = [] ∧
    json_loads c6Resp.content = none ∧
    (call_model ("id1") c6Resp = Message.ai c6Resp.content [] ∧
      should_continue (call_model_node ("id1") c6Resp c6State) = some Route.endTurn ∧
      (call_model_node ("id1") c6Resp c6State).messages.getLast?
        = some (Message.ai c6Resp.content [])) :=
  ⟨rfl, rfl, (C6_decide_route c6State ("id1") c6Resp).2.2 rfl rfl⟩

/-! ## Claim C7 -/

/-- Yield events neither open nor close the forwarder bracket. -/
theorem noDangling_yields (ys : List String) (b : Bool) (r : List SttEvent) :
    noDanglingForwarder b (ys.map SttEvent.yieldMsg ++ r) = noDanglingForwarder b r := by
  induction ys with
  | nil => rfl
  | cons y ys ih =>
    simp only [List.map_cons, List.cons_append, noDanglingForwarder]
    exact ih

/-- Across a full run of the generator, no connection attempt is made
while a forwarding task from an earlier attempt is still running. -/
theorem noDangling_run (d : Nat) (sched : List (Bool × SttOutcome)) :
    noDanglingForwarder false (sttRun d sched) = true := by
  induction sched with
  | nil => rfl
  | cons p rest ih =>
    obtain ⟨f, oc⟩ := p
    cases f with
    | true => cases oc <;> rfl
    | false =>
      cases oc with
      | connectRefused b =>
        cases b <;>
          simp [sttRun, sttIteration, noDanglingForwarder, noDangling_yields, ih]
      | recvClosed ys b =>
        cases b <;>
          simp [sttRun, sttIteration, noDanglingForwarder, noDangling_yields, ih]
      | shutdownObserved ys =>
        simp [sttRun, sttIteration, noDanglingForwarder, noDangling_yields, ih]
      | unexpectedChoke =>
        simp [sttRun, sttIteration, noDanglingForwarder, noDangling_yields, ih]
      | unexpectedAfterConnect ys =>
        simp [sttRun, sttIteration, noDanglingForwarder, noDangling_yields, ih]

/-- A block of transient connection failures with shutdown unset only
adds attempt-and-sleep pairs; the generator keeps running into the rest
of the schedule, for every block length. -/
theorem sttRun_replicate (d : Nat) (n : Nat) (rest : List (Bool × SttOutcome)) :
    sttRun d (List.replicate n (false, SttOutcome.connectRefused false) ++ rest)
      = (List.replicate n [SttEvent.connectAttempt, SttEvent.sleepRetry d]).flatten
        ++ sttRun d rest := by
  induction n with
  | zero => simp
  | succ k ih =>
    simp only [List.replicate_succ, List.cons_append, sttRun, sttIteration, List.flatten,
      if_neg (Bool.false_ne_true), List.append_assoc]
    simp [ih]

/-- C7: the STT client retries after the fixed delay on a refused or
closed connection, indefinitely while shutdown stays unset; it stops
when the shutdown signal is observed at the loop head, inside the
except clause, or inside the receive loop; it stops permanently on an
unexpected error class; and the audio-forwarding task started by an
attempt is always cancelled and awaited before any later attempt. -/
theorem C7_stt_reconnect_policy (d : Nat) (ys : List String) (oc : SttOutcome)
    (sched : List (Bool × SttOutcome)) (n : Nat) (rest : List (Bool × SttOutcome)) :
    (sttIteration d false (SttOutcome.connectRefused false)
        = ([SttEvent.connectAttempt, SttEvent.sleepRetry d], SttNext.keepLooping)) ∧
    (sttIteration d false (SttOutcome.recvClosed ys false)
        = ([SttEvent.connectAttempt, SttEvent.forwarderStart] ++ ys.map SttEvent.yieldMsg
            ++ [SttEvent.sleepRetry d, SttEvent.forwarderCancelAwait],
          SttNext.keepLooping)) ∧
    (sttIteration d true oc = ([], SttNext.stopped)) ∧
    ((sttIteration d false (SttOutcome.connectRefused true)).2 = SttNext.stopped) ∧
    ((sttIteration d false (SttOutcome.recvClosed ys true)).2 = SttNext.stopped) ∧
    ((sttIteration d false (SttOutcome.shutdownObserved ys)).2 = SttNext.stopped) ∧
    ((sttIteration d false SttOutcome.unexpectedChoke).2 = SttNext.stopped) ∧
    ((sttIteration d false (SttOutcome.unexpectedAfterConnect ys)).2 = SttNext.stopped) ∧
    (noDanglingForwarder false (sttRun d sched) = true) ∧
    (sttRun d (List.replicate n (false, SttOutcome.connectRefused false) ++ rest)
        = (List.replicate n [SttEvent.connectAttempt, SttEvent.sleepRetry d]).flatten
          ++ sttRun d rest) :=
  ⟨rfl, rfl, rfl, rfl, rfl, rfl, rfl, rfl, noDangling_run d sched, sttRun_replicate d n rest⟩

/-! ## Claim C8 -/

/-- Reaching a None read or a read exception through any run of
non-terminal events makes the synthesis loop report a lost
connection. -/
theorem ttsReadLoop_connLost (mid : List TtsReadItem) (brk : TtsReadItem)
    (hbrk : brk = TtsReadItem.closedNone ∨ brk = TtsReadItem.raiseExc) :
    ∀ (w : Option (Nat × Nat × Nat)) (fr : List (List Nat)) (ar : Bool)
      (rest : List TtsReadItem), mid.all nonTerminalRead = true →
    ttsReadLoop w fr ar (mid ++ brk :: rest) = SynthOutcome.connLost := by
  induction mid with
  | nil =>
    intro w fr ar rest _
    cases hbrk with
    | inl h => rw [h]; rfl
    | inr h => rw [h]; rfl
  | cons i mid ih =>
    intro w fr ar rest h
    rw [List.all_cons, Bool.and_eq_true] at h
    obtain ⟨hi, hmid⟩ := h
    cases i with
    | ev e =>
      cases e with
      | audioStart r2 w2 c2 =>
        simp only [List.cons_append, ttsReadLoop]
        exact ih _ _ _ _ hmid
      | audioChunk a =>
        cases w with
        | some p =>
          simp only [List.cons_append, ttsReadLoop]
          exact ih _ _ _ _ hmid
        | none =>
          simp only [List.cons_append, ttsReadLoop]
          exact ih _ _ _ _ hmid
      | audioStop => simp [nonTerminalRead] at hi
      | errorEvent t => simp [nonTerminalRead] at hi
      | otherEvent t =>
        simp only [List.cons_append, ttsReadLoop]
        exact ih _ _ _ _ hmid
    | closedNone => simp [nonTerminalRead] at hi
    | raiseExc => simp [nonTerminalRead] at hi

/-- A synthesis that reaches AudioStop without any audio chunk returns
no audio. -/
theorem ttsReadLoop_no_audio (mid : List TtsReadItem) :
    ∀ (w : Option (Nat × Nat × Nat)) (fr : List (List Nat)) (rest : List TtsReadItem),
    mid.all (fun i => nonTerminalRead i && !isChunkRead i) = true →
    ttsReadLoop w fr false (mid ++ TtsReadItem.ev TtsEvent.audioStop :: rest)
      = SynthOutcome.finished none := by
  induction mid with
  | nil => intro w fr rest _; rfl
  | cons i mid ih =>
    intro w fr rest h
    rw [List.all_cons, Bool.and_eq_true] at h
    obtain ⟨hi, hmid⟩ := h
    rw [Bool.and_eq_true] at hi
    obtain ⟨hnt, hnc⟩ := hi
    cases i with
    | ev e =>
      cases e with
      | audioStart r2 w2 c2 =>
        simp only [List.cons_append, ttsReadLoop]
        exact ih _ _ _ hmid
      | audioChunk a => simp [isChunkRead] at hnc
      | audioStop => simp [nonTerminalRead] at hnt
      | errorEvent t => simp [nonTerminalRead] at hnt
      | otherEvent t =>
        simp only [List.cons_append, ttsReadLoop]
        exact ih _ _ _ hmid
    | closedNone => simp [nonTerminalRead] at hnt
    | raiseExc => simp [nonTerminalRead] at hnt

/-- C8: any read failure or unexpected connection closure during a
synthesize call makes the call return none with the cached connection
closed and discarded, so the next call establishes a new connection;
and a synthesis that completes without receiving any audio chunk
returns none while keeping the connection. -/
theorem C8_tts_failure_handling (client : Bool) (mid rest : List TtsReadItem) :
    (mid.all nonTerminalRead = true →
      synthesize_speech client (mid ++ TtsReadItem.closedNone :: rest)
          = some (none, false) ∧
      synthesize_speech client (mid ++ TtsReadItem.raiseExc :: rest)
          = some (none, false)) ∧
    (mid.all (fun i => nonTerminalRead i && !isChunkRead i) = true →
      synthesize_speech client (mid ++ TtsReadItem.ev TtsEvent.audioStop :: rest)
        = some (none, true)) ∧
    ensure_connected false = (true, true) ∧
    ensure_connected true = (true, false) := by
  have hconn : (ensure_connected client).1 = true := by
    cases client <;> rfl
  refine ⟨?_, ?_, rfl, rfl⟩
  · intro h
    have h1 := ttsReadLoop_connLost mid TtsReadItem.closedNone (Or.inl rfl)
      none [] false rest h
    have h2 := ttsReadLoop_connLost mid TtsReadItem.raiseExc (Or.inr rfl)
      none [] false rest h
    constructor <;> (unfold synthesize_speech; rw [hconn]; simp [h1, h2])
  · intro h
    have h3 := ttsReadLoop_no_audio mid none [] rest h
    unfold synthesize_speech
    rw [hconn]
    simp [h3]

/-- A concrete read script delivering only a stream start. -/
def c8Reads : List TtsReadItem := [TtsReadItem.ev (TtsEvent.audioStart 22050 2 1)]

/-- C8 witness: on the concrete script, a None read and a read
exception fail the call and discard the connection, and a chunk-free
synthesis returns none. -/
theorem C8_tts_failure_handling_witness :
    c8Reads.all nonTerminalRead = true ∧
    (synthesize_speech true (c8Reads ++ TtsReadItem.closedNone :: [])
        = some (none, false) ∧
      synthesize_speech true (c8Reads ++ TtsReadItem.raiseExc :: [])
        = some (none, false)) ∧
    c8Reads.all (fun i => nonTerminalRead i && !isChunkRead i) = true ∧
    synthesize_speech true (c8Reads ++ TtsReadItem.ev TtsEvent.audioStop :: [])
      = some (none, true) :=
  ⟨by decide, (C8_tts_failure_handling true c8Reads []).1 (by decide),
    by decide, (C8_tts_failure_handling true c8Reads []).2.1 (by decide)⟩

/-! ## Claim C9 -/

theorem findInstance_append_some (p : ProviderClass)
    (l l2 : List (ProviderClass × ProviderInstance)) (i : ProviderInstance)
    (h : findInstance p l = some i) : findInstance p (l ++ l2) = some i := by
  induction l with
  | nil => simp [findInstance] at h
  | cons kv l ih =>
    obtain ⟨k, j⟩ := kv
    by_cases hk : k = p
    · subst hk
      simp [findInstance] at h ⊢
      exact h
    · simp [findInstance, hk] at h ⊢
      exact ih h

theorem findInstance_append_self (p : ProviderClass)
    (l : List (ProviderClass × ProviderInstance)) (i : ProviderInstance)
    (h : findInstance p l = none) : findInstance p (l ++ [(p, i)]) = some i := by
  induction l with
  | nil => simp [findInstance]
  | cons kv l ih =>
    obtain ⟨k, j⟩ := kv
    by_cases hk : k = p
    · subst hk
      simp [findInstance] at h
    · simp [findInstance, hk] at h ⊢
      exact ih h

/-- A cached provider is returned as-is, leaving the registry
untouched. -/
theorem get_provider_instance_cached (p : ProviderClass) (r : ToolRegistry)
    (i : ProviderInstance) (h : findInstance p r.tool_instances = some i) :
    get_provider_instance p r = (i, r) := by
  unfold get_provider_instance
  rw [h]

/-- After a request, the requested provider is cached with the returned
instance. -/
theorem get_provider_instance_establishes (p : ProviderClass) (r : ToolRegistry) :
    findInstance p ((get_provider_instance p r).2).tool_instances
      = some ((get_provider_instance p r).1) := by
  unfold get_provider_instance
  cases h : findInstance p r.tool_instances with
  | some i => simp [h]
  | none =>
    simp only [h]
    exact findInstance_append_self p r.tool_instances _ h

/-- Requesting one provider never evicts another from the cache. -/
theorem get_provider_instance_preserves (p q : ProviderClass) (r : ToolRegistry)
    (i : ProviderInstance) (h : findInstance p r.tool_instances = some i) :
    findInstance p ((get_provider_instance q r).2).tool_instances = some i := by
  unfold get_provider_instance
  cases hq : findInstance q r.tool_instances with
  | some j => simpa using h
  | none =>
    simp only [hq]
    exact findInstance_append_some p r.tool_instances _ i h

theorem collectTools_preserves (ps : List ProviderClass) (p : ProviderClass)
    (i : ProviderInstance) :
    ∀ r : ToolRegistry, findInstance p r.tool_instances = some i →
      findInstance p ((collectTools ps r).2).tool_instances = some i := by
  induction ps with
  | nil => intro r h; exact h
  | cons q ps ih =>
    intro r h
    rcases hg : get_provider_instance q r with ⟨j, r2⟩
    have h2 : findInstance p r2.tool_instances = some i := by
      have := get_provider_instance_preserves p q r i h
      rw [hg] at this
      exact this
    rcases hc : collectTools ps r2 with ⟨rest, r3⟩
    have h3 : findInstance p r3.tool_instances = some i := by
      have := ih r2 h2
      rw [hc] at this
      exact this
    simp only [collectTools, hg, hc]
    exact h3

theorem collectTools_providers (ps : List ProviderClass) :
    ∀ r : ToolRegistry, ((collectTools ps r).2).tool_providers = r.tool_providers := by
  induction ps with
  | nil => intro r; rfl
  | cons q ps ih =>
    intro r
    rcases hg : get_provider_instance q r with ⟨j, r2⟩
    have h2 : r2.tool_providers = r.tool_providers := by
      have : ((get_provider_instance q r).2).tool_providers = r.tool_providers := by
        unfold get_provider_instance
        cases h : findInstance q r.tool_instances <;> simp [h]
      rw [hg] at this
      exact this
    rcases hc : collectTools ps r2 with ⟨rest, r3⟩
    have h3 : r3.tool_providers = r2.tool_providers := by
      have := ih r2
      rw [hc] at this
      exact this
    simp only [collectTools, hg, hc]
    rw [h3, h2]

/-- Collecting tools a second time over the same provider list is a
pure replay: it returns the same tools and leaves the registry
unchanged. -/
theorem collectTools_idem (ps : List ProviderClass) :
    ∀ r : ToolRegistry, collectTools ps ((collectTools ps r).2)
      = ((collectTools ps r).1, (collectTools ps r).2) := by
  induction ps with
  | nil => intro r; rfl
  | cons q ps ih =>
    intro r
    rcases hg : get_provider_instance q r with ⟨j, r2⟩
    rcases hc : collectTools ps r2 with ⟨rest, r3⟩
    have hfirst : collectTools (q :: ps) r = (instanceTools j ++ rest, r3) := by
      simp only [collectTools, hg, hc]
    rw [hfirst]
    have hj : findInstance q r3.tool_instances = some j := by
      have h1 : findInstance q r2.tool_instances = some j := by
        have := get_provider_instance_establishes q r
        rw [hg] at this
        exact this
      have := collectTools_preserves ps q j r2 h1
      rw [hc] at this
      exact this
    have hg3 : get_provider_instance q r3 = (j, r3) :=
      get_provider_instance_cached q r3 j hj
    have hc3 : collectTools ps r3 = (rest, r3) := by
      have := ih r2
      rw [hc] at this
      exact this
    simp only [collectTools, hg3, hc3]

theorem register_provider_of_mem (p : ProviderClass) (s : ToolRegistry)
    (hs : p ∈ s.tool_providers) : register_provider p s = s := by
  unfold register_provider
  simp [hs]

/-- Registering the same provider class twice is the same as
registering it once. -/
theorem register_provider_idem (p : ProviderClass) (r : ToolRegistry) :
    register_provider p (register_provider p r) = register_provider p r := by
  by_cases hp : p ∈ r.tool_providers
  · rw [register_provider_of_mem p r hp]
    exact register_provider_of_mem p r hp
  · have hmem : p ∈ (register_provider p r).tool_providers := by
      unfold register_provider
      simp [hp]
    exact register_provider_of_mem p _ hmem

/-- C9: registration is idempotent (any positive number of
registrations of the same provider class leaves exactly one entry),
each provider is constructed at most once per registry (a second
request returns the cached instance and leaves the registry unchanged),
and repeated get_all_tools calls return the same tools in the same
stable order while leaving the registry unchanged. -/
theorem C9_registry_properties (p : ProviderClass) (r : ToolRegistry) (n : Nat)
    (hp : p ∉ r.tool_providers) :
    (register_provider p (register_provider p r) = register_provider p r) ∧
    (register_provider_iter (n + 1) p r = register_provider p r) ∧
    ((register_provider p r).tool_providers.count p = 1) ∧
    (get_provider_instance p ((get_provider_instance p r).2)
      = ((get_provider_instance p r).1, (get_provider_instance p r).2)) ∧
    (get_all_tools ((get_all_tools r).2) = ((get_all_tools r).1, (get_all_tools r).2)) := by
  refine ⟨register_provider_idem p r, ?_, ?_, ?_, ?_⟩
  · induction n with
    | zero => rfl
    | succ k ih =>
      show register_provider p (register_provider_iter (k + 1) p r)
        = register_provider p r
      rw [ih]
      exact register_provider_idem p r
  · unfold register_provider
    rw [if_neg hp]
    show List.count p (r.tool_providers ++ [p]) = 1
    rw [List.count_append, List.count_eq_zero.mpr hp]
    simp
  · exact get_provider_instance_cached p _ _ (get_provider_instance_establishes p r)
  · unfold get_all_tools
    rw [collectTools_providers r.tool_providers r]
    exact collectTools_idem r.tool_providers r

/-- A concrete provider class exposing two tools. -/
def c9Provider : ProviderClass := { name := "PersonTools", toolsOf := some ["get_person", "get_user_info"] }

/-- A concrete empty registry. -/
def c9Registry : ToolRegistry := { tool_providers := [], tool_instances := [], next_cid := 0 }

/-- C9 witness: the registry properties evaluated on a concrete
provider and a fresh registry. -/
theorem C9_registry_properties_witness :
    c9Provider ∉ c9Registry.tool_providers ∧
    ((register_provider c9Provider (register_provider c9Provider c9Registry)
        = register_provider c9Provider c9Registry) ∧
      (register_provider_iter 3 c9Provider c9Registry
        = register_provider c9Provider c9Registry) ∧
      ((register_provider c9Provider c9Registry).tool_providers.count c9Provider = 1) ∧
      (get_provider_instance c9Provider ((get_provider_instance c9Provider c9Registry).2)
        = ((get_provider_instance c9Provider c9Registry).1,
            (get_provider_instance c9Provider c9Registry).2)) ∧
      (get_all_tools ((get_all_tools c9Registry).2)
        = ((get_all_tools c9Registry).1, (get_all_tools c9Registry).2))) :=
  ⟨by decide, C9_registry_properties c9Provider c9Registry 2 (by decide)⟩

/-! ## Claim C2 -/

/-- The gather over the session tasks returns exactly when every task
finishes: an already completed task immediately, a cancelled task at
its acknowledgement time, and never when some task never
acknowledges. -/
theorem gather_completion_isSome (tasks : List SessionTask) :
    (gather_completion tasks).isSome
      = tasks.all (fun t => (task_finish_time t).isSome) := by
  induction tasks with
  | nil => rfl
  | cons t ts ih =>
    show (match task_finish_time t, gather_completion ts with
      | some a, some b => some (Nat.max a b)
      | _, _ => none).isSome
      = ((task_finish_time t).isSome && ts.all (fun t => (task_finish_time t).isSome))
    cases ht : task_finish_time t with
    | none => cases hg : gather_completion ts <;> simp
    | some a =>
      cases hg : gather_completion ts with
      | none =>
        rw [hg] at ih
        simp only [Option.isSome_none, Bool.false_eq] at ih
        simp [← ih]
      | some b =>
        rw [hg] at ih
        simp only [Option.isSome_some, Bool.true_eq] at ih
        simp [← ih]

/-- C2 counterexample: with a single still-running task that never
acknowledges cancellation, the shutdown path never completes its wait
(there is no timeout around the gather in _cancel_tasks) and the TTS
connection is never closed — the claimed bounded wait and subsequent
close do not happen. -/
theorem C2_counterexample :
    (shutdown_sequence [⟨false, none⟩]).completion = none ∧
    (shutdown_sequence [⟨false, none⟩]).tts_closed = false :=
  ⟨rfl, rfl⟩

/-- C2 (amended): on shutdown the supervisor sets the shutdown flag,
signals cancellation to every still-running task, and waits for
acknowledgement with no timeout: the wait completes (and only then is
the TTS connection closed) exactly when every task finishes, and a task
that never acknowledges blocks the shutdown sequence indefinitely, the
TTS connection never being closed. -/
theorem C2_shutdown_unbounded (tasks : List SessionTask) :
    (shutdown_sequence tasks).flag_set = true ∧
    (shutdown_sequence tasks).cancel_signalled = tasks.map (fun t => !t.done) ∧
    ((shutdown_sequence tasks).completion).isSome
      = tasks.all (fun t => (task_finish_time t).isSome) ∧
    (shutdown_sequence tasks).tts_closed
      = tasks.all (fun t => (task_finish_time t).isSome) :=
  ⟨rfl, rfl, gather_completion_isSome tasks, gather_completion_isSome tasks⟩

end MaxAssistant
